import Mathlib

/-!
Shallow embedding of the asset-package layer writer and multi-source fetcher
(package `internal/asset` of the pack repository: `writer.go`, `fetcher.go`,
and the URI/image fetcher files).

Conventions of the embedding:
* byte streams are `List Nat`;
* Go's `(result, err)` multiple returns become explicit pairs with `Option`/`Except`;
* the SHA-256 function of `crypto/sha256` and the tar serialization performed by
  the external `archive` tar-writer factory are external collaborators and appear
  as function parameters (`hash`, `wf`);
* calls made on the `Writable` target are recorded as a trace of `TargetCall`
  values, and the target's responses are a function `TargetCall → Option String`
  (`none` = success, `some e` = the error the call returns);
* filesystem side effects of `Open`/`Close` are recorded as `FsOp` traces.
-/

/-! ## String helpers (executable, kernel-reducible) -/

/-- Boolean test: the first character list is an initial segment of the second. -/
def isPrefixB : List Char → List Char → Bool
  | [], _ => true
  | _ :: _, [] => false
  | a :: as, b :: bs => a = b && isPrefixB as bs

/-- Boolean substring search: `pat` occurs somewhere inside `s`. -/
def containsB (pat : List Char) : List Char → Bool
  | [] => isPrefixB pat []
  | c :: rest => isPrefixB pat (c :: rest) || containsB pat rest

/-- `strContains s pat` is true when `pat` occurs as a substring of `s`. -/
def strContains (s pat : String) : Bool :=
  containsB pat.toList s.toList

/-- `strStartsWith s pat` is true when `s` begins with `pat`. -/
def strStartsWith (s pat : String) : Bool :=
  isPrefixB pat.toList s.toList

/-! ## Content model (`dist.AssetInfo`, `dist.AssetValue`, `dist.AssetMap`)

The `dist` package itself is not under `src/`; these records are modelled from
the spec's data-model table and the fields exercised by the tests. -/

/-- Modelled from the spec: `dist.AssetInfo`, the declared identity of an asset
before packaging (ID, Name, Version, URI, declared `Sha256`, compatible stacks). -/
structure AssetInfo where
  ID : String
  Name : String
  Version : String
  URI : String
  Sha256 : String
  Stacks : List String
deriving DecidableEq, Repr

/-- Modelled from the spec: `dist.AssetValue`, the final persisted metadata for
one packaged asset; `layerDiffID` is the hash of the actual packaged content. -/
structure AssetValue where
  ID : String
  Name : String
  Version : String
  URI : String
  Stacks : List String
  LayerDiffID : String
deriving DecidableEq, Repr

/-- Modelled from the spec: `AssetInfo.ToAssetValue` copies the identity fields
and sets the given diff-id. -/
def AssetInfo.ToAssetValue (info : AssetInfo) (diffID : String) : AssetValue :=
  { ID := info.ID
    Name := info.Name
    Version := info.Version
    URI := info.URI
    Stacks := info.Stacks
    LayerDiffID := diffID }

/-- `dist.AssetMap`: a Go map from declared sha256 to `AssetValue`, embedded as
an association list with unique keys maintained by `mapInsert`. -/
abbrev AssetMap := List (String × AssetValue)

/-- Go map read `md[k]` with ok-flag. -/
def mapLookup : AssetMap → String → Option AssetValue
  | [], _ => none
  | (k, v) :: rest, key => if k = key then some v else mapLookup rest key

/-- Go map write `md[k] = v`: replaces the entry when the key is present,
otherwise adds it. -/
def mapInsert : AssetMap → String → AssetValue → AssetMap
  | [], key, val => [(key, val)]
  | (k, v) :: rest, key, val =>
      if k = key then (key, val) :: rest else (k, v) :: mapInsert rest key val

/-! ## Blob (`asset.Blob` / `dist.Blob`) -/

/-- Decidable equality for `Except` results (needed to derive it for `Blob`). -/
instance exceptDecEq {e a : Type} [DecidableEq e] [DecidableEq a] : DecidableEq (Except e a)
  | .error x, .error y =>
      if h : x = y then .isTrue (by rw [h]) else .isFalse (fun hh => h (by cases hh; rfl))
  | .error _, .ok _ => .isFalse (fun hh => by cases hh)
  | .ok _, .error _ => .isFalse (fun hh => by cases hh)
  | .ok x, .ok y =>
      if h : x = y then .isTrue (by rw [h]) else .isFalse (fun hh => h (by cases hh; rfl))

/-- A content provider: `AssetDescriptor()` returns the declared identity and
`Open()` either yields the raw content bytes or fails with an error message. -/
structure Blob where
  AssetDescriptor : AssetInfo
  Open : Except String (List Nat)
deriving DecidableEq, Repr

/-- Boolean success test for an `Except` result. -/
def isOkE {ε α : Type} : Except ε α → Bool
  | .ok _ => true
  | .error _ => false

/-- Boolean failure test for an `Except` result. -/
def isErrE {ε α : Type} : Except ε α → Bool
  | .ok _ => false
  | .error _ => true

/-! ## Tar layer model (`toAssetTar` of `writer.go`) -/

/-- Tar entry kinds used by `toAssetTar` (`tar.TypeDir`, `tar.TypeReg`). -/
inductive TarTypeflag
  | typeDir
  | typeReg
deriving DecidableEq, Repr

/-- The tar header fields `toAssetTar` populates. -/
structure TarHeader where
  typeflag : TarTypeflag
  name : String
  mode : Nat
  size : Nat
  modTime : Nat
deriving DecidableEq, Repr

/-- One call made on the tar writer: a `WriteHeader` or a `Write` of raw bytes. -/
inductive TarItem
  | header (h : TarHeader)
  | fileBytes (bs : List Nat)
deriving DecidableEq, Repr

/-- Modelled from the spec: `archive.NormalizedDateTime`, the fixed normalized
modification time used for byte-for-byte reproducibility (the `archive` package
is not under `src/`; only its fixedness matters here). -/
def normalizedDateTime : Nat := 315532801

/-- The tar items `toAssetTar` emits for declared hash `blobSha` and content
`content`: directories `/cnb` and `/cnb/assets` (mode 0755, normalized time),
then one regular file `/cnb/assets/<blobSha>` holding the content, its size the
actual byte count. -/
def assetTarItems (blobSha : String) (content : List Nat) : List TarItem :=
  [ TarItem.header ⟨TarTypeflag.typeDir, "/cnb", 0o755, 0, normalizedDateTime⟩,
    TarItem.header ⟨TarTypeflag.typeDir, "/cnb/assets", 0o755, 0, normalizedDateTime⟩,
    TarItem.header ⟨TarTypeflag.typeReg, "/cnb/assets/" ++ blobSha, 0o755,
      content.length, normalizedDateTime⟩,
    TarItem.fileBytes content ]

/-- `toAssetTar` of `writer.go`: writes the two directory headers, opens the
blob, buffers its content, then writes the file header and the raw bytes.  An
`Open` failure aborts with the wrapped message
`unable to open blob for asset "<sha>": <cause>`. -/
def toAssetTar (blobSha : String) (blob : Blob) : Except String (List TarItem) :=
  match blob.Open with
  | .error e =>
      .error ("unable to open blob for asset \"" ++ blobSha ++ "\": " ++ e)
  | .ok content => .ok (assetTarItems blobSha content)

/-! ## The layer writer (`AssetWriter` of `writer.go`) -/

/-- A call made on the `Writable` target. -/
inductive TargetCall
  | addLayerWithDiffID (path diffID : String)
  | setLabel (key value : String)
deriving DecidableEq, Repr

/-- The structured errors `AssetWriter.Write` can return, mirroring the wraps
in `writer.go`. -/
inductive WriteErr
  | notOpened
  | layerFile (cause : String)
  | layerWrite (cause : String)
  | unknownAsset (sha256 : String)
  | labelFailed (cause : String)
deriving DecidableEq, Repr

/-- The error message carried by each `WriteErr`, following the `errors.Wrapf`
format strings of `writer.go`. -/
def WriteErr.message : WriteErr → String
  | .notOpened => "AssetWriter must be opened before writing"
  | .layerFile c => "unable to create asset layer file: " ++ c
  | .layerWrite c => "unable to write layer: " ++ c
  | .unknownAsset s => "unknown sha256 asset value " ++ s
  | .labelFailed c => c

/-- Filesystem side effects of `Open` and `Close`. -/
inductive FsOp
  | mkTempDir (name : String)
  | removeAll (dir : String)
deriving DecidableEq, Repr

/-- `asset.AssetWriter`: workspace directory (empty string = not open), the
ordered blob sequence, the provisional metadata map, and the tar-writer factory
(an external collaborator, embedded as the serialization function it induces on
the emitted tar items). -/
structure AssetWriter where
  tmpDir : String
  blobs : List Blob
  metadata : AssetMap
  writerFactory : List TarItem → List Nat

/-- `asset.NewLayerWriter`. -/
def NewLayerWriter (writerFactory : List TarItem → List Nat) : AssetWriter :=
  { tmpDir := "", blobs := [], metadata := [], writerFactory := writerFactory }

/-- `AssetWriter.Open`: fails with a state error when already open, otherwise
records the fresh temporary workspace directory `newTmpDir` (the name
`ioutil.TempDir` returned). -/
def AssetWriter.Open (lw : AssetWriter) (newTmpDir : String) :
    Except String AssetWriter × List FsOp :=
  if lw.tmpDir ≠ "" then
    (.error "unable to open writer: writer already open", [])
  else
    (.ok { lw with tmpDir := newTmpDir }, [FsOp.mkTempDir newTmpDir])

/-- `AssetWriter.Close`: fails with a state error when not open, otherwise
recursively deletes the workspace and clears `tmpDir` (the embedding assumes
`os.RemoveAll` succeeds). -/
def AssetWriter.Close (lw : AssetWriter) :
    Except String AssetWriter × List FsOp :=
  if lw.tmpDir = "" then
    (.error "unable to close writer: writer is not open", [])
  else
    (.ok { lw with tmpDir := "" }, [FsOp.removeAll lw.tmpDir])

/-- `AssetWriter.AddAssetBlobs`: appends the blobs to the ordered sequence and
records a provisional `AssetValue` (empty diff-id) for each declared hash,
overwriting any entry already keyed by the same hash. -/
def AssetWriter.AddAssetBlobs (lw : AssetWriter) (aBlobs : List Blob) : AssetWriter :=
  { lw with
    blobs := lw.blobs ++ aBlobs,
    metadata := aBlobs.foldl
      (fun md b => mapInsert md b.AssetDescriptor.Sha256 (b.AssetDescriptor.ToAssetValue ""))
      lw.metadata }

/-- `AssetWriter.AssetMetadata`. -/
def AssetWriter.AssetMetadata (lw : AssetWriter) : AssetMap :=
  lw.metadata

/-- `asset.LayersLabel`, the fixed label key (constant defined outside `src/`;
its value is fixed by the spec and the tests). -/
def LayersLabel : String := "io.buildpacks.asset.layers"

/-- The raw content of a blob whose `Open` succeeded (junk `[]` otherwise). -/
def blobContent (b : Blob) : List Nat :=
  match b.Open with
  | .ok c => c
  | .error _ => []

/-- The diff-id (hex digest, unprefixed) `createAssetLayerFile` computes for a
blob: `hash` applied to the serialized tar stream of the blob's layer. -/
def blobDiffID (hash : List Nat → String) (wf : List TarItem → List Nat)
    (b : Blob) : String :=
  hash (wf (assetTarItems b.AssetDescriptor.Sha256 (blobContent b)))

/-- The `AddLayerWithDiffID` call `Write` makes for one blob: the layer file
path joins the workspace directory with the declared hash, and the diff-id is
the `sha256:`-prefixed hash of the actual layer bytes. -/
def stepCall (hash : List Nat → String) (wf : List TarItem → List Nat)
    (tmpDir : String) (b : Blob) : TargetCall :=
  TargetCall.addLayerWithDiffID (tmpDir ++ "/" ++ b.AssetDescriptor.Sha256)
    ("sha256:" ++ blobDiffID hash wf b)

/-- The metadata update `Write` performs for one blob: look up the provisional
entry for the declared hash and write it back with the actual diff-id. -/
def stepMd (hash : List Nat → String) (wf : List TarItem → List Nat)
    (md : AssetMap) (b : Blob) : AssetMap :=
  match mapLookup md b.AssetDescriptor.Sha256 with
  | none => md
  | some m =>
      mapInsert md b.AssetDescriptor.Sha256
        { m with LayerDiffID := "sha256:" ++ blobDiffID hash wf b }

/-- The per-blob loop of `AssetWriter.Write`: for each blob build the tar
stream, hash and persist it, register the layer on the target, and update the
metadata entry; any failure aborts immediately with the wrapped error.  Returns
the metadata reached so far, the target-call trace, and the error if any. -/
def writeBlobs (hash : List Nat → String) (target : TargetCall → Option String)
    (tmpDir : String) (wf : List TarItem → List Nat) :
    List Blob → AssetMap → List TargetCall →
    AssetMap × List TargetCall × Option WriteErr
  | [], md, calls => (md, calls, none)
  | aBlob :: rest, md, calls =>
      let descriptor := aBlob.AssetDescriptor
      let layerFileName := tmpDir ++ "/" ++ descriptor.Sha256
      match toAssetTar descriptor.Sha256 aBlob with
      | .error e => (md, calls, some (WriteErr.layerFile e))
      | .ok items =>
          let layerDiffID := hash (wf items)
          let call := TargetCall.addLayerWithDiffID layerFileName ("sha256:" ++ layerDiffID)
          match target call with
          | some e => (md, calls ++ [call], some (WriteErr.layerWrite e))
          | none =>
              match mapLookup md descriptor.Sha256 with
              | none => (md, calls ++ [call], some (WriteErr.unknownAsset descriptor.Sha256))
              | some m =>
                  writeBlobs hash target tmpDir wf rest
                    (mapInsert md descriptor.Sha256
                      { m with LayerDiffID := "sha256:" ++ layerDiffID })
                    (calls ++ [call])

/-! JSON serialization of the metadata label (`dist.SetLabel` with
`json.Marshal`; the `dist` package is not under `src/`, modelled from the
spec's persisted-label shape, with Go's sorted-key map encoding). -/

/-- Key order `a ≤ b` on the character lists of two strings. -/
def charListLe : List Char → List Char → Bool
  | [], _ => true
  | _ :: _, [] => false
  | a :: as, b :: bs =>
      if a = b then charListLe as bs else decide (a.toNat < b.toNat)

/-- Insert one entry into a key-sorted entry list. -/
def insertSorted (p : String × AssetValue) :
    List (String × AssetValue) → List (String × AssetValue)
  | [] => [p]
  | q :: rest =>
      if charListLe p.1.toList q.1.toList then p :: q :: rest
      else q :: insertSorted p rest

/-- Sort the map entries by key, as Go's `json.Marshal` does for maps. -/
def sortByKey (l : List (String × AssetValue)) : List (String × AssetValue) :=
  l.foldr insertSorted []

/-- Modelled from the spec: JSON string escaping (quote and backslash). -/
def jsonEscape (s : String) : String :=
  String.mk (s.toList.foldr
    (fun c acc =>
      if c = '"' then '\\' :: '"' :: acc
      else if c = '\\' then '\\' :: '\\' :: acc
      else c :: acc) [])

/-- A JSON string literal. -/
def jsonStr (s : String) : String := "\"" ++ jsonEscape s ++ "\""

/-- A JSON array of strings. -/
def jsonStrList (l : List String) : String :=
  "[" ++ String.intercalate "," (l.map jsonStr) ++ "]"

/-- Modelled from the spec: the JSON object for one `AssetValue`, shape
`{ "id", "name", "version", "uri", "stacks", "layerDiffID" }`. -/
def jsonAssetValue (v : AssetValue) : String :=
  "\x7b" ++ jsonStr "id" ++ ":" ++ jsonStr v.ID
    ++ "," ++ jsonStr "name" ++ ":" ++ jsonStr v.Name
    ++ "," ++ jsonStr "version" ++ ":" ++ jsonStr v.Version
    ++ "," ++ jsonStr "uri" ++ ":" ++ jsonStr v.URI
    ++ "," ++ jsonStr "stacks" ++ ":" ++ jsonStrList v.Stacks
    ++ "," ++ jsonStr "layerDiffID" ++ ":" ++ jsonStr v.LayerDiffID
    ++ "\x7d"

/-- Modelled from the spec: the JSON object persisted as the label value,
mapping each declared sha256 to its `AssetValue`, keys sorted. -/
def jsonAssetMap (md : AssetMap) : String :=
  "\x7b" ++ String.intercalate ","
      ((sortByKey md).map (fun p => jsonStr p.1 ++ ":" ++ jsonAssetValue p.2))
    ++ "\x7d"

/-- `AssetWriter.Write`: requires the open state, runs the per-blob loop, then
serializes the metadata and sets it as the single label
`io.buildpacks.asset.layers` on the target.  Returns the updated writer, the
trace of target calls, and the error if any. -/
def AssetWriter.Write (lw : AssetWriter) (hash : List Nat → String)
    (target : TargetCall → Option String) :
    AssetWriter × List TargetCall × Option WriteErr :=
  if lw.tmpDir = "" then (lw, [], some WriteErr.notOpened)
  else
    match writeBlobs hash target lw.tmpDir lw.writerFactory lw.blobs lw.metadata [] with
    | (md, calls, some e) => ({ lw with metadata := md }, calls, some e)
    | (md, calls, none) =>
        let labelCall := TargetCall.setLabel LayersLabel (jsonAssetMap md)
        match target labelCall with
        | some e => ({ lw with metadata := md }, calls ++ [labelCall],
            some (WriteErr.labelFailed e))
        | none => ({ lw with metadata := md }, calls ++ [labelCall], none)

/-- A writer populated exclusively through `AddAssetBlobs`: the batches of
blobs added, in order, starting from `NewLayerWriter`. -/
def builtFrom (wf : List TarItem → List Nat) (batches : List (List Blob)) : AssetWriter :=
  batches.foldl (fun lw bs => lw.AddAssetBlobs bs) (NewLayerWriter wf)

/-- The same writer after a successful `Open` that allocated workspace `t`. -/
def openedFrom (wf : List TarItem → List Nat) (t : String)
    (batches : List (List Blob)) : AssetWriter :=
  { builtFrom wf batches with tmpDir := t }

/-! ## The fetcher façade (`fetcher.go`) and the locator

The locator (`GetLocatorType`) lives outside `src/`; it is modelled from the
spec's classification contract.  The three source-fetcher strategies are
external collaborators here and are embedded as the response functions they
induce (each already cast to `Readable` collections, as `castOCIToReadable` /
`castImgToReadable` do). -/

/-- An opaque `Readable` asset-package source. -/
structure Readable where
  rid : Nat
deriving DecidableEq, Repr

/-- `config.PullPolicy`. -/
inductive PullPolicy
  | always
  | ifNotPresent
  | never
deriving DecidableEq, Repr

/-- The locator classification results. -/
inductive LocatorType
  | uriLocator
  | filepathLocator
  | imageLocator
deriving DecidableEq, Repr

/-- `LocatorType.String()` (defined outside `src/`): a distinct printable name
per backend, used in the fetch error message. -/
def LocatorType.str : LocatorType → String
  | .uriLocator => "URILocator"
  | .filepathLocator => "FilepathLocator"
  | .imageLocator => "ImageLocator"

/-- Modelled from the spec: `GetLocatorType` classifies one reference string
purely syntactically, in priority order: explicit `http://`/`https://`/`file://`
scheme, then an existing path on disk (absolute, or relative to the working
directory, probed through `fileExists`), else an image reference. -/
def GetLocatorType (fileExists : String → Bool) (assetName workingDir : String) :
    LocatorType :=
  if strStartsWith assetName "http://" || strStartsWith assetName "https://"
      || strStartsWith assetName "file://" then LocatorType.uriLocator
  else if fileExists assetName || fileExists (workingDir ++ "/" ++ assetName) then
    LocatorType.filepathLocator
  else LocatorType.imageLocator

/-- `asset.FetcherConfig` (the cancellation context carries no logic and is
elided). -/
structure FetcherConfig where
  imagePullPolicy : PullPolicy
  workingDir : String

/-- `asset.DefaultFetcherConfig`; `wd` is the `os.Getwd()` result. -/
def DefaultFetcherConfig (wd : String) : FetcherConfig :=
  { imagePullPolicy := PullPolicy.ifNotPresent, workingDir := wd }

/-- `asset.FetcherOptions`. -/
abbrev FetcherOptions := FetcherConfig → FetcherConfig

/-- `asset.WithPullPolicy`. -/
def WithPullPolicy (policy : PullPolicy) : FetcherOptions :=
  fun cfg => { cfg with imagePullPolicy := policy }

/-- `asset.WithWorkingDir`. -/
def WithWorkingDir (workingDir : String) : FetcherOptions :=
  fun cfg => { cfg with workingDir := workingDir }

/-- `asset.Fetcher`: the three strategies, embedded as the `Readable`-collection
responses they produce for a single reference. -/
structure Fetcher where
  assetFileFetcher : String → String → Except String (List Readable)
  assetURIFetcher : String → Except String (List Readable)
  assetImageFetcher : PullPolicy → String → Except String (List Readable)

/-- The option application loop of `FetchAssets`:
`cfg := DefaultFetcherConfig(); for _, option := range options { option(&cfg) }`. -/
def resolveConfig (wd : String) (options : List FetcherOptions) : FetcherConfig :=
  options.foldl (fun c o => o c) (DefaultFetcherConfig wd)

/-- The dispatch `switch` of `FetchAssets`: classify one reference and invoke
the matching strategy. -/
def dispatchRef (f : Fetcher) (fileExists : String → Bool) (cfg : FetcherConfig)
    (assetName : String) : Except String (List Readable) :=
  match GetLocatorType fileExists assetName cfg.workingDir with
  | LocatorType.uriLocator => f.assetURIFetcher assetName
  | LocatorType.filepathLocator => f.assetFileFetcher cfg.workingDir assetName
  | LocatorType.imageLocator => f.assetImageFetcher cfg.imagePullPolicy assetName

/-- The reference loop of `FetchAssets`.  The third component instruments which
references were dispatched to a strategy (so that "later references are not
fetched" is observable); the first two mirror Go's `(result, err)` return. -/
def fetchLoop (f : Fetcher) (fileExists : String → Bool) (cfg : FetcherConfig) :
    List String → List Readable → List String →
    List Readable × Option String × List String
  | [], result, trace => (result, none, trace)
  | assetName :: rest, result, trace =>
      let locator := GetLocatorType fileExists assetName cfg.workingDir
      match dispatchRef f fileExists cfg assetName with
      | .error e =>
          (result,
           some ("unable to fetch asset of type \"" ++ locator.str ++ "\": " ++ e),
           trace ++ [assetName])
      | .ok assets => fetchLoop f fileExists cfg rest (result ++ assets) (trace ++ [assetName])

/-- `Fetcher.FetchAssets`: resolve the configuration from the defaults and the
option functions, then process the reference list strictly in order,
accumulating results and failing immediately on the first per-reference error
with a message naming the locator type. -/
def Fetcher.FetchAssets (f : Fetcher) (fileExists : String → Bool) (wd : String)
    (assetNameList : List String) (options : List FetcherOptions) :
    List Readable × Option String × List String :=
  fetchLoop f fileExists (resolveConfig wd options) assetNameList [] []

/-! ## The two URI fetchers (`PackageURLFetcher` and `AssetURIFetcher`)

Both walk the reference list, downloading `http`/`https` references and opening
the result as an OCI-layout package; they differ in how an OCI-layout open
failure is handled: `PackageURLFetcher` wraps and returns the error, while
`AssetURIFetcher` panics (the `TODO -Dan- handle error` branch). -/

/-- The observable outcome of a `FetchURIAssets` run: a Go return pair, or a
process panic. -/
inductive FetchRun
  | ret (result : List Readable) (err : Option String)
  | panicked (msg : String)
deriving DecidableEq, Repr

/-- The external capabilities both URI fetchers consume: the downloader, the
OCI-layout opener (`oci.NewLayoutPackage` / `ocipackage.NewOCILayoutPackage`),
`paths.URIToFilePath`, and the local file fetcher. -/
structure URIFetchEnv where
  download : String → Except String Nat
  newOCILayoutPackage : Nat → Except String Readable
  uriToFilePath : String → Except String String
  fetchFileAssets : String → String → Except String (List Readable)

/-- Modelled from the spec: the scheme `url.Parse` extracts from a well-formed
reference. -/
def schemeOf (s : String) : String :=
  if strStartsWith s "https://" then "https"
  else if strStartsWith s "http://" then "http"
  else if strStartsWith s "file://" then "file"
  else ""

/-- The reference loop of `AssetURIFetcher.FetchURIAssets` (`writer.go`, third
document): on an OCI-layout open failure it panics. -/
def assetURIFetchLoop (env : URIFetchEnv) :
    List String → List Readable → FetchRun
  | [], result => FetchRun.ret result none
  | assetFile :: rest, result =>
      let scheme := schemeOf assetFile
      if scheme = "http" ∨ scheme = "https" then
        match env.download assetFile with
        | .error e => FetchRun.ret result (some ("unable to download asset: \"" ++ e ++ "\""))
        | .ok assetBlob =>
            match env.newOCILayoutPackage assetBlob with
            | .error e => FetchRun.panicked e
            | .ok p => assetURIFetchLoop env rest (result ++ [p])
      else if scheme = "file" then
        match env.uriToFilePath assetFile with
        | .error e => FetchRun.ret result (some ("unable to get asset filepath: \"" ++ e ++ "\""))
        | .ok assetFilePath =>
            match env.fetchFileAssets "" assetFilePath with
            | .error e => FetchRun.ret result (some ("unable to fetch local file asset: \"" ++ e ++ "\""))
            | .ok assetsFromFile => assetURIFetchLoop env rest (result ++ assetsFromFile)
      else FetchRun.ret result (some ("unable to handle url scheme: \"" ++ scheme ++ "\""))

/-- `AssetURIFetcher.FetchURIAssets`. -/
def AssetURIFetcher.FetchURIAssets (env : URIFetchEnv) (uriAssets : List String) :
    FetchRun :=
  assetURIFetchLoop env uriAssets []

/-- The reference loop of `PackageURLFetcher.FetchURIAssets` (`writer.go`,
second document): an OCI-layout open failure is wrapped with
`error opening asset package in OCI format` and returned. -/
def packageURLFetchLoop (env : URIFetchEnv) :
    List String → List Readable → FetchRun
  | [], result => FetchRun.ret result none
  | assetFile :: rest, result =>
      let scheme := schemeOf assetFile
      if scheme = "http" ∨ scheme = "https" then
        match env.download assetFile with
        | .error e => FetchRun.ret result (some ("unable to download asset: \"" ++ e ++ "\""))
        | .ok assetBlob =>
            match env.newOCILayoutPackage assetBlob with
            | .error e =>
                FetchRun.ret result (some ("error opening asset package in OCI format: " ++ e))
            | .ok p => packageURLFetchLoop env rest (result ++ [p])
      else if scheme = "file" then
        match env.uriToFilePath assetFile with
        | .error e => FetchRun.ret result (some ("unable to get asset filepath: \"" ++ e ++ "\""))
        | .ok assetFilePath =>
            match env.fetchFileAssets "" assetFilePath with
            | .error e => FetchRun.ret result (some ("unable to fetch local file asset: \"" ++ e ++ "\""))
            | .ok assetsFromFile => packageURLFetchLoop env rest (result ++ assetsFromFile)
      else FetchRun.ret result (some ("unable to handle url scheme: \"" ++ scheme ++ "\""))

/-- `PackageURLFetcher.FetchURIAssets`. -/
def PackageURLFetcher.FetchURIAssets (env : URIFetchEnv) (uriAssets : List String) :
    FetchRun :=
  packageURLFetchLoop env uriAssets []

/-! ## Map lemmas -/

theorem mapLookup_insert_self (md : AssetMap) (k : String) (v : AssetValue) :
    mapLookup (mapInsert md k v) k = some v := by
  induction md with
  | nil => simp [mapInsert, mapLookup]
  | cons p rest ih =>
      obtain ⟨a, b⟩ := p
      by_cases h : a = k <;> simp [mapInsert, mapLookup, h, ih]

theorem mapLookup_insert_ne (md : AssetMap) (k : String) (v : AssetValue)
    (k' : String) (h : k ≠ k') :
    mapLookup (mapInsert md k v) k' = mapLookup md k' := by
  induction md with
  | nil => simp [mapInsert, mapLookup, h]
  | cons p rest ih =>
      obtain ⟨a, b⟩ := p
      by_cases ha : a = k <;> simp [mapInsert, mapLookup, ha, ih, h]

theorem mapLookup_insert_isSome (md : AssetMap) (k : String) (v : AssetValue)
    (k' : String) (h : mapLookup md k' ≠ none) :
    mapLookup (mapInsert md k v) k' ≠ none := by
  by_cases hk : k = k'
  · subst hk
    simp [mapLookup_insert_self]
  · rw [mapLookup_insert_ne md k v k' hk]
    exact h

theorem mapInsert_length_present (md : AssetMap) (k : String) (v : AssetValue)
    (h : mapLookup md k ≠ none) :
    (mapInsert md k v).length = md.length := by
  induction md with
  | nil => simp [mapLookup] at h
  | cons p rest ih =>
      obtain ⟨a, b⟩ := p
      by_cases ha : a = k
      · simp [mapInsert, ha]
      · simp only [mapLookup, ha, if_false] at h
        simp [mapInsert, ha, ih h]

theorem mapInsert_length_absent (md : AssetMap) (k : String) (v : AssetValue)
    (h : mapLookup md k = none) :
    (mapInsert md k v).length = md.length + 1 := by
  induction md with
  | nil => simp [mapInsert]
  | cons p rest ih =>
      obtain ⟨a, b⟩ := p
      by_cases ha : a = k
      · simp [mapLookup, ha] at h
      · simp only [mapLookup, ha, if_false] at h
        simp [mapInsert, ha, ih h]

/-! ## Per-blob loop lemmas -/

/-- Shorthand for a blob's declared hash. -/
abbrev blobSha (b : Blob) : String := b.AssetDescriptor.Sha256

theorem writeBlobs_nil (hash : List Nat → String) (target : TargetCall → Option String)
    (t : String) (wf : List TarItem → List Nat) (md : AssetMap) (calls : List TargetCall) :
    writeBlobs hash target t wf [] md calls = (md, calls, none) := rfl

theorem writeBlobs_cons_openFail (hash : List Nat → String)
    (target : TargetCall → Option String) (t : String) (wf : List TarItem → List Nat)
    (b : Blob) (rest : List Blob) (md : AssetMap) (calls : List TargetCall)
    (e : String) (hopen : b.Open = .error e) :
    writeBlobs hash target t wf (b :: rest) md calls =
      (md, calls, some (WriteErr.layerFile
        ("unable to open blob for asset \"" ++ blobSha b ++ "\": " ++ e))) := by
  simp [writeBlobs, toAssetTar, hopen, blobSha]

theorem stepCall_of_open (hash : List Nat → String) (wf : List TarItem → List Nat)
    (t : String) (b : Blob) (c : List Nat) (hopen : b.Open = .ok c) :
    stepCall hash wf t b =
      TargetCall.addLayerWithDiffID (t ++ "/" ++ blobSha b)
        ("sha256:" ++ hash (wf (assetTarItems (blobSha b) c))) := by
  simp [stepCall, blobDiffID, blobContent, hopen, blobSha]

theorem writeBlobs_cons_ok (hash : List Nat → String)
    (target : TargetCall → Option String) (t : String) (wf : List TarItem → List Nat)
    (b : Blob) (rest : List Blob) (md : AssetMap) (calls : List TargetCall)
    (c : List Nat) (hopen : b.Open = .ok c)
    (m : AssetValue) (hm : mapLookup md (blobSha b) = some m)
    (htgt : target (stepCall hash wf t b) = none) :
    writeBlobs hash target t wf (b :: rest) md calls =
      writeBlobs hash target t wf rest
        (mapInsert md (blobSha b) { m with LayerDiffID := "sha256:" ++ blobDiffID hash wf b })
        (calls ++ [stepCall hash wf t b]) := by
  rw [stepCall_of_open hash wf t b c hopen] at htgt ⊢
  simp only [blobSha] at hm htgt ⊢
  simp [writeBlobs, toAssetTar, hopen, hm, htgt, blobDiffID, blobContent]

theorem stepMd_eq_insert (hash : List Nat → String) (wf : List TarItem → List Nat)
    (md : AssetMap) (b : Blob) (m : AssetValue)
    (hm : mapLookup md (blobSha b) = some m) :
    stepMd hash wf md b =
      mapInsert md (blobSha b) { m with LayerDiffID := "sha256:" ++ blobDiffID hash wf b } := by
  simp only [blobSha] at hm
  simp [stepMd, hm]

theorem stepMd_lookup_preserve (hash : List Nat → String) (wf : List TarItem → List Nat)
    (md : AssetMap) (b : Blob) (k : String) (h : mapLookup md k ≠ none) :
    mapLookup (stepMd hash wf md b) k ≠ none := by
  unfold stepMd
  cases hl : mapLookup md b.AssetDescriptor.Sha256 with
  | none => simpa using h
  | some m => simpa using mapLookup_insert_isSome md _ _ k h

theorem stepMd_lookup_ne (hash : List Nat → String) (wf : List TarItem → List Nat)
    (md : AssetMap) (b : Blob) (k : String) (h : blobSha b ≠ k) :
    mapLookup (stepMd hash wf md b) k = mapLookup md k := by
  unfold stepMd
  cases hl : mapLookup md b.AssetDescriptor.Sha256 with
  | none => rfl
  | some m => simpa using mapLookup_insert_ne md _ _ k h

theorem writeBlobs_success (hash : List Nat → String) (target : TargetCall → Option String)
    (t : String) (wf : List TarItem → List Nat) (bs : List Blob) :
    ∀ (md : AssetMap) (calls : List TargetCall),
    (∀ b ∈ bs, isOkE b.Open = true) →
    (∀ b ∈ bs, mapLookup md (blobSha b) ≠ none) →
    (∀ c, target c = none) →
    writeBlobs hash target t wf bs md calls =
      (bs.foldl (stepMd hash wf) md, calls ++ bs.map (stepCall hash wf t), none) := by
  induction bs with
  | nil =>
      intro md calls _ _ _
      simp [writeBlobs_nil]
  | cons b rest ih =>
      intro md calls hopen hgood htgt
      obtain ⟨c, hc⟩ : ∃ c, b.Open = .ok c := by
        cases h : b.Open with
        | ok c => exact ⟨c, rfl⟩
        | error e =>
            have hb := hopen b (by simp)
            rw [h] at hb
            simp [isErrE, isOkE] at hb
      obtain ⟨m, hm⟩ : ∃ m, mapLookup md (blobSha b) = some m := by
        have hb := hgood b (by simp)
        cases h : mapLookup md (blobSha b) with
        | some m => exact ⟨m, rfl⟩
        | none => exact absurd h hb
      have hopen' : ∀ b' ∈ rest, isOkE b'.Open = true :=
        fun b' hb' => hopen b' (by simp [hb'])
      have hgood' : ∀ b' ∈ rest,
          mapLookup (mapInsert md (blobSha b)
            { m with LayerDiffID := "sha256:" ++ blobDiffID hash wf b }) (blobSha b') ≠ none :=
        fun b' hb' => mapLookup_insert_isSome md _ _ _ (hgood b' (by simp [hb']))
      rw [writeBlobs_cons_ok hash target t wf b rest md calls c hc m hm (htgt _)]
      rw [ih _ _ hopen' hgood' htgt]
      simp [stepMd_eq_insert hash wf md b m hm]

/-! ## Metadata bookkeeping lemmas -/

/-- The metadata fold `AddAssetBlobs` performs. -/
def addMeta (md : AssetMap) (bs : List Blob) : AssetMap :=
  bs.foldl (fun m b => mapInsert m (blobSha b) (b.AssetDescriptor.ToAssetValue "")) md

theorem AddAssetBlobs_metadata (lw : AssetWriter) (bs : List Blob) :
    (lw.AddAssetBlobs bs).metadata = addMeta lw.metadata bs := rfl

theorem AddAssetBlobs_blobs (lw : AssetWriter) (bs : List Blob) :
    (lw.AddAssetBlobs bs).blobs = lw.blobs ++ bs := rfl

theorem addMeta_cons (md : AssetMap) (b : Blob) (rest : List Blob) :
    addMeta md (b :: rest) =
      addMeta (mapInsert md (blobSha b) (b.AssetDescriptor.ToAssetValue "")) rest := rfl

theorem addMeta_lookup_notin (bs : List Blob) (md : AssetMap) (k : String)
    (h : k ∉ bs.map blobSha) :
    mapLookup (addMeta md bs) k = mapLookup md k := by
  induction bs generalizing md with
  | nil => rfl
  | cons b rest ih =>
      simp only [List.map_cons, List.mem_cons, not_or] at h
      obtain ⟨h1, h2⟩ := h
      rw [addMeta_cons, ih _ h2, mapLookup_insert_ne _ _ _ _ (Ne.symm h1)]

theorem addMeta_lookup_self (bs : List Blob) (md : AssetMap)
    (hnodup : (bs.map blobSha).Nodup) :
    ∀ b ∈ bs, mapLookup (addMeta md bs) (blobSha b) =
      some (b.AssetDescriptor.ToAssetValue "") := by
  induction bs generalizing md with
  | nil => simp
  | cons hd rest ih =>
      simp only [List.map_cons, List.nodup_cons] at hnodup
      obtain ⟨hnot, hnd⟩ := hnodup
      intro b hb
      rcases List.mem_cons.mp hb with rfl | hbr
      · rw [addMeta_cons, addMeta_lookup_notin rest _ _ hnot, mapLookup_insert_self]
      · rw [addMeta_cons]
        exact ih _ hnd b hbr

theorem addMeta_length (bs : List Blob) (md : AssetMap)
    (hnodup : (bs.map blobSha).Nodup)
    (habs : ∀ b ∈ bs, mapLookup md (blobSha b) = none) :
    (addMeta md bs).length = md.length + bs.length := by
  induction bs generalizing md with
  | nil => simp [addMeta]
  | cons hd rest ih =>
      simp only [List.map_cons, List.nodup_cons] at hnodup
      obtain ⟨hnot, hnd⟩ := hnodup
      have habs' : ∀ b ∈ rest,
          mapLookup (mapInsert md (blobSha hd) (hd.AssetDescriptor.ToAssetValue ""))
            (blobSha b) = none := by
        intro b hb
        have hne : blobSha hd ≠ blobSha b := by
          intro he
          exact hnot (he ▸ List.mem_map_of_mem blobSha hb)
        rw [mapLookup_insert_ne _ _ _ _ hne]
        exact habs b (List.mem_cons_of_mem hd hb)
      rw [addMeta_cons, ih _ hnd habs',
        mapInsert_length_absent md _ _ (habs hd (List.mem_cons_self hd rest))]
      simp only [List.length_cons]
      omega

theorem foldl_stepMd_lookup_notin (hash : List Nat → String) (wf : List TarItem → List Nat)
    (bs : List Blob) :
    ∀ (md : AssetMap) (k : String), k ∉ bs.map blobSha →
    mapLookup (bs.foldl (stepMd hash wf) md) k = mapLookup md k := by
  induction bs with
  | nil => intro md k _; rfl
  | cons b rest ih =>
      intro md k h
      simp only [List.map_cons, List.mem_cons, not_or] at h
      obtain ⟨h1, h2⟩ := h
      rw [List.foldl_cons, ih _ _ h2, stepMd_lookup_ne _ _ _ _ _ (Ne.symm h1)]

theorem foldl_stepMd_length (hash : List Nat → String) (wf : List TarItem → List Nat)
    (bs : List Blob) :
    ∀ md : AssetMap, (∀ b ∈ bs, mapLookup md (blobSha b) ≠ none) →
    (bs.foldl (stepMd hash wf) md).length = md.length := by
  induction bs with
  | nil => intro md _; rfl
  | cons b rest ih =>
      intro md hgood
      obtain ⟨m, hm⟩ : ∃ m, mapLookup md (blobSha b) = some m := by
        cases h : mapLookup md (blobSha b) with
        | some m => exact ⟨m, rfl⟩
        | none => exact absurd h (hgood b (List.mem_cons_self b rest))
      have hpres : ∀ b' ∈ rest, mapLookup (stepMd hash wf md b) (blobSha b') ≠ none :=
        fun b' hb' =>
          stepMd_lookup_preserve hash wf md b _ (hgood b' (List.mem_cons_of_mem b hb'))
      rw [List.foldl_cons, ih _ hpres, stepMd_eq_insert hash wf md b m hm,
        mapInsert_length_present md _ _ (by simp [hm])]

theorem toAssetValue_update (d : AssetInfo) (x : String) :
    { d.ToAssetValue "" with LayerDiffID := x } = d.ToAssetValue x := rfl

theorem foldl_stepMd_lookup_self (hash : List Nat → String) (wf : List TarItem → List Nat)
    (bs : List Blob) (hnodup : (bs.map blobSha).Nodup) :
    ∀ md : AssetMap,
    (∀ b ∈ bs, mapLookup md (blobSha b) = some (b.AssetDescriptor.ToAssetValue "")) →
    ∀ b ∈ bs, mapLookup (bs.foldl (stepMd hash wf) md) (blobSha b) =
      some (b.AssetDescriptor.ToAssetValue ("sha256:" ++ blobDiffID hash wf b)) := by
  induction bs with
  | nil => simp
  | cons hd rest ih =>
      simp only [List.map_cons, List.nodup_cons] at hnodup
      obtain ⟨hnot, hnd⟩ := hnodup
      intro md hmd b hb
      have hstep : stepMd hash wf md hd =
          mapInsert md (blobSha hd)
            (hd.AssetDescriptor.ToAssetValue ("sha256:" ++ blobDiffID hash wf hd)) := by
        rw [stepMd_eq_insert hash wf md hd _ (hmd hd (List.mem_cons_self hd rest)),
          toAssetValue_update]
      rcases List.mem_cons.mp hb with rfl | hbr
      · rw [List.foldl_cons, foldl_stepMd_lookup_notin hash wf rest _ _ hnot, hstep,
          mapLookup_insert_self]
      · rw [List.foldl_cons, hstep]
        refine ih hnd _ ?_ b hbr
        intro b' hb'
        have hne : blobSha hd ≠ blobSha b' := by
          intro he
          exact hnot (he ▸ List.mem_map_of_mem blobSha hb')
        rw [mapLookup_insert_ne _ _ _ _ hne]
        exact hmd b' (List.mem_cons_of_mem hd hb')

/-! ## `Write` success-path lemma -/

theorem Write_success (lw : AssetWriter) (hash : List Nat → String)
    (target : TargetCall → Option String) (ht : lw.tmpDir ≠ "")
    (hopen : ∀ b ∈ lw.blobs, isOkE b.Open = true)
    (hgood : ∀ b ∈ lw.blobs, mapLookup lw.metadata (blobSha b) ≠ none)
    (htgt : ∀ c, target c = none) :
    lw.Write hash target =
      ({ lw with metadata := lw.blobs.foldl (stepMd hash lw.writerFactory) lw.metadata },
       lw.blobs.map (stepCall hash lw.writerFactory lw.tmpDir)
         ++ [TargetCall.setLabel LayersLabel
              (jsonAssetMap (lw.blobs.foldl (stepMd hash lw.writerFactory) lw.metadata))],
       none) := by
  unfold AssetWriter.Write
  rw [if_neg ht,
    writeBlobs_success hash target lw.tmpDir lw.writerFactory lw.blobs lw.metadata []
      hopen hgood htgt]
  simp [htgt]

/-! ## Concrete fixtures used by witnesses and counterexamples -/

/-- A concrete tar-writer factory: a fixed serialization stub. -/
def wf0 : List TarItem → List Nat := fun items => [items.length]

/-- A concrete content hasher: hex-digit-free stub keyed on stream length. -/
def hash0 : List Nat → String := fun l => String.mk (List.replicate (l.length + 1) 'a')

/-- A target on which every call succeeds. -/
def target0 : TargetCall → Option String := fun _ => none

/-- A concrete declared identity (the first asset of the repository's tests). -/
def infoA : AssetInfo :=
  { ID := "first-asset", Name := "First AssetInfo", Version := "1.2.3",
    URI := "https://first-asset-uri", Sha256 := "first-sha256",
    Stacks := ["io.buildpacks.stacks.bionic"] }

/-- A readable blob carrying `infoA`. -/
def blobA : Blob := { AssetDescriptor := infoA, Open := .ok [102, 105] }

/-! ## C1 -/

/-- C1: for a non-empty blob sequence with pairwise-distinct declared hashes
added via `AddAssetBlobs`, a successful `Write` on an open writer registers
exactly one layer per blob (one `AddLayerWithDiffID` call each, in order,
followed by the single label write) and produces an `AssetMap` with exactly one
entry per blob whose `LayerDiffID` is `sha256:` followed by the hash of the
actual tar-layer bytes written for that blob (`blobDiffID`), not the declared
hash. -/
theorem c1_one_layer_and_entry_per_blob
    (wf : List TarItem → List Nat) (hash : List Nat → String)
    (target : TargetCall → Option String) (t : String) (bs : List Blob)
    (hne : bs ≠ [])
    (hnodup : (bs.map blobSha).Nodup)
    (hopen : ∀ b ∈ bs, isOkE b.Open = true)
    (htgt : ∀ c, target c = none)
    (ht : t ≠ "") :
    ((openedFrom wf t [bs]).Write hash target).2.2 = none ∧
    ((openedFrom wf t [bs]).Write hash target).2.1 =
      bs.map (stepCall hash wf t)
        ++ [TargetCall.setLabel LayersLabel
             (jsonAssetMap (((openedFrom wf t [bs]).Write hash target).1.metadata))] ∧
    (((openedFrom wf t [bs]).Write hash target).1.metadata).length = bs.length ∧
    ∀ b ∈ bs, mapLookup (((openedFrom wf t [bs]).Write hash target).1.metadata) (blobSha b) =
      some (b.AssetDescriptor.ToAssetValue ("sha256:" ++ blobDiffID hash wf b)) := by
  have hblobs : (openedFrom wf t [bs]).blobs = bs := by
    simp [openedFrom, builtFrom, AssetWriter.AddAssetBlobs, NewLayerWriter]
  have hmd : (openedFrom wf t [bs]).metadata = addMeta [] bs := rfl
  have hwf : (openedFrom wf t [bs]).writerFactory = wf := rfl
  have htd : (openedFrom wf t [bs]).tmpDir = t := rfl
  have hgood : ∀ b ∈ (openedFrom wf t [bs]).blobs,
      mapLookup (openedFrom wf t [bs]).metadata (blobSha b) ≠ none := by
    rw [hblobs, hmd]
    intro b hb
    rw [addMeta_lookup_self bs [] hnodup b hb]
    simp
  have hw := Write_success (openedFrom wf t [bs]) hash target
    (by rw [htd]; exact ht) (by rw [hblobs]; exact hopen) hgood htgt
  rw [hblobs, hmd, hwf, htd] at hw
  have habs : ∀ b ∈ bs, mapLookup ([] : AssetMap) (blobSha b) = none := by
    intro b _
    rfl
  have hgood0 : ∀ b ∈ bs, mapLookup (addMeta [] bs) (blobSha b) ≠ none := by
    intro b hb
    rw [addMeta_lookup_self bs [] hnodup b hb]
    simp
  refine ⟨by rw [hw], by rw [hw], ?_, ?_⟩
  · rw [hw]
    simp only
    rw [foldl_stepMd_length hash wf bs (addMeta [] bs) hgood0,
      addMeta_length bs [] hnodup habs]
    simp
  · intro b hb
    rw [hw]
    simp only
    exact foldl_stepMd_lookup_self hash wf bs hnodup (addMeta [] bs)
      (addMeta_lookup_self bs [] hnodup) b hb

/-- Witness for C1 at a concrete one-blob input. -/
theorem c1_one_layer_and_entry_per_blob_witness :
    ([blobA] ≠ ([] : List Blob)) ∧
    ([blobA].map blobSha).Nodup ∧
    (∀ b ∈ [blobA], isOkE b.Open = true) ∧
    ("tmp" : String) ≠ "" ∧
    ((openedFrom wf0 "tmp" [[blobA]]).Write hash0 target0).2.2 = none ∧
    (((openedFrom wf0 "tmp" [[blobA]]).Write hash0 target0).1.metadata).length = 1 ∧
    mapLookup (((openedFrom wf0 "tmp" [[blobA]]).Write hash0 target0).1.metadata)
        (blobSha blobA) =
      some (blobA.AssetDescriptor.ToAssetValue ("sha256:" ++ blobDiffID hash0 wf0 blobA)) := by
  have h := c1_one_layer_and_entry_per_blob wf0 hash0 target0 "tmp" [blobA]
    (by decide) (by decide) (by decide) (fun c => rfl) (by decide)
  refine ⟨by decide, by decide, by decide, by decide, h.1, ?_, h.2.2.2 blobA (by simp)⟩
  rw [h.2.2.1]
  rfl

/-! ## C2 -/

/-- C2: when blobs `b1` then `b2` are added in that order via `AddAssetBlobs`
with the same declared hash, a successful `Write` leaves a single `AssetMap`
entry, keyed by that hash, carrying `b2`'s identity fields and `b2`'s
content-derived diff-id — `b1`'s metadata entry is replaced (last-write-wins). -/
theorem c2_duplicate_hash_last_write_wins
    (wf : List TarItem → List Nat) (hash : List Nat → String)
    (target : TargetCall → Option String) (t : String) (b1 b2 : Blob)
    (hH : blobSha b1 = blobSha b2)
    (h1 : isOkE b1.Open = true) (h2 : isOkE b2.Open = true)
    (htgt : ∀ c, target c = none) (ht : t ≠ "") :
    ((openedFrom wf t [[b1, b2]]).Write hash target).2.2 = none ∧
    ((openedFrom wf t [[b1, b2]]).Write hash target).1.metadata =
      [(blobSha b2, b2.AssetDescriptor.ToAssetValue
          ("sha256:" ++ blobDiffID hash wf b2))] := by
  have hblobs : (openedFrom wf t [[b1, b2]]).blobs = [b1, b2] := by
    simp [openedFrom, builtFrom, AssetWriter.AddAssetBlobs, NewLayerWriter]
  have hmd_eq : (openedFrom wf t [[b1, b2]]).metadata =
      [(blobSha b2, b2.AssetDescriptor.ToAssetValue "")] := by
    show addMeta [] [b1, b2] = _
    simp [addMeta, mapInsert, hH]
  have hopen : ∀ b ∈ (openedFrom wf t [[b1, b2]]).blobs, isOkE b.Open = true := by
    rw [hblobs]
    intro b hb
    rcases List.mem_cons.mp hb with rfl | hb'
    · exact h1
    · simp only [List.mem_singleton] at hb'
      subst hb'
      exact h2
  have hgood : ∀ b ∈ (openedFrom wf t [[b1, b2]]).blobs,
      mapLookup (openedFrom wf t [[b1, b2]]).metadata (blobSha b) ≠ none := by
    rw [hblobs, hmd_eq]
    intro b hb
    rcases List.mem_cons.mp hb with rfl | hb'
    · simp [mapLookup, hH]
    · simp only [List.mem_singleton] at hb'
      subst hb'
      simp [mapLookup]
  have hw := Write_success (openedFrom wf t [[b1, b2]]) hash target ht hopen hgood htgt
  rw [hblobs, hmd_eq] at hw
  have hfold : List.foldl (stepMd hash ((openedFrom wf t [[b1, b2]]).writerFactory))
      [(blobSha b2, b2.AssetDescriptor.ToAssetValue "")] [b1, b2] =
      [(blobSha b2, b2.AssetDescriptor.ToAssetValue
          ("sha256:" ++ blobDiffID hash ((openedFrom wf t [[b1, b2]]).writerFactory) b2))] := by
    simp [List.foldl, stepMd, mapLookup, mapInsert, hH, AssetInfo.ToAssetValue]
  rw [hfold] at hw
  refine ⟨by rw [hw], ?_⟩
  rw [hw]
  rfl

/-- A second declared identity sharing `infoA`'s declared hash. -/
def infoB : AssetInfo :=
  { ID := "first-asset-replace", Name := "First AssetInfo Replace", Version := "1.2.3",
    URI := "https://first-asset-replace-uri", Sha256 := "first-sha256",
    Stacks := ["io.buildpacks.stacks.bionic"] }

/-- A readable blob carrying `infoB`, with different content than `blobA`. -/
def blobB : Blob := { AssetDescriptor := infoB, Open := .ok [114, 101, 112] }

/-- Witness for C2 at concrete blobs sharing the declared hash `first-sha256`. -/
theorem c2_duplicate_hash_last_write_wins_witness :
    blobSha blobA = blobSha blobB ∧
    isOkE blobA.Open = true ∧
    isOkE blobB.Open = true ∧
    ("tmp" : String) ≠ "" ∧
    ((openedFrom wf0 "tmp" [[blobA, blobB]]).Write hash0 target0).2.2 = none ∧
    ((openedFrom wf0 "tmp" [[blobA, blobB]]).Write hash0 target0).1.metadata =
      [(blobSha blobB, blobB.AssetDescriptor.ToAssetValue
          ("sha256:" ++ blobDiffID hash0 wf0 blobB))] := by
  have h := c2_duplicate_hash_last_write_wins wf0 hash0 target0 "tmp" blobA blobB
    (by decide) (by decide) (by decide) (fun c => rfl) (by decide)
  exact ⟨by decide, by decide, by decide, by decide, h.1, h.2⟩

/-! ## C6 -/

/-- C6: the tar stream built for a blob is, in order, a `/cnb` directory entry
(mode 0755, the fixed normalized time), a `/cnb/assets` directory entry with
the same mode and timestamp, and exactly one regular file entry at
`/cnb/assets/<declared-sha256>` whose content is the blob's raw bytes verbatim
and whose recorded size is the actual byte count read from the blob. -/
theorem c6_tar_stream_shape (b : Blob) (content : List Nat)
    (h : b.Open = .ok content) :
    toAssetTar (blobSha b) b = .ok
      [ TarItem.header ⟨TarTypeflag.typeDir, "/cnb", 0o755, 0, normalizedDateTime⟩,
        TarItem.header ⟨TarTypeflag.typeDir, "/cnb/assets", 0o755, 0, normalizedDateTime⟩,
        TarItem.header ⟨TarTypeflag.typeReg, "/cnb/assets/" ++ blobSha b, 0o755,
          content.length, normalizedDateTime⟩,
        TarItem.fileBytes content ] := by
  simp [toAssetTar, h, assetTarItems]

/-- Witness for C6 at the concrete blob `blobA`. -/
theorem c6_tar_stream_shape_witness :
    blobA.Open = .ok [102, 105] ∧
    toAssetTar (blobSha blobA) blobA = .ok
      [ TarItem.header ⟨TarTypeflag.typeDir, "/cnb", 0o755, 0, normalizedDateTime⟩,
        TarItem.header ⟨TarTypeflag.typeDir, "/cnb/assets", 0o755, 0, normalizedDateTime⟩,
        TarItem.header ⟨TarTypeflag.typeReg, "/cnb/assets/" ++ blobSha blobA, 0o755,
          ([102, 105] : List Nat).length, normalizedDateTime⟩,
        TarItem.fileBytes [102, 105] ] :=
  ⟨rfl, c6_tar_stream_shape blobA [102, 105] rfl⟩

/-! ## C9 -/

/-- C9: the writer state machine — `Open` on an already-open writer fails with
a state error and performs no filesystem operation, `Close` on a writer that is
not open fails with a state error, a successful `Close` recursively deletes the
workspace and returns the writer to the unopened state, and `Write` on a writer
that is not open errors without making any call on the target. -/
theorem c9_state_machine (lw : AssetWriter) (newTmpDir : String)
    (hash : List Nat → String) (target : TargetCall → Option String) :
    (lw.tmpDir ≠ "" →
      lw.Open newTmpDir = (.error "unable to open writer: writer already open", [])) ∧
    (lw.tmpDir = "" →
      lw.Close = (.error "unable to close writer: writer is not open", [])) ∧
    (lw.tmpDir ≠ "" →
      lw.Close = (.ok { lw with tmpDir := "" }, [FsOp.removeAll lw.tmpDir])) ∧
    (lw.tmpDir = "" → lw.Write hash target = (lw, [], some WriteErr.notOpened)) := by
  refine ⟨?_, ?_, ?_, ?_⟩ <;> intro h <;>
    simp [AssetWriter.Open, AssetWriter.Close, AssetWriter.Write, h]

/-- An unopened concrete writer. -/
def lwClosed : AssetWriter := NewLayerWriter wf0

/-- An open concrete writer with workspace `tmp`. -/
def lwOpened : AssetWriter := { NewLayerWriter wf0 with tmpDir := "tmp" }

/-- Witness for C9 at concrete open and unopened writers. -/
theorem c9_state_machine_witness :
    lwOpened.Open "x" = (.error "unable to open writer: writer already open", []) ∧
    lwClosed.Close = (.error "unable to close writer: writer is not open", []) ∧
    lwOpened.Close = (.ok { lwOpened with tmpDir := "" }, [FsOp.removeAll lwOpened.tmpDir]) ∧
    lwClosed.Write hash0 target0 = (lwClosed, [], some WriteErr.notOpened) :=
  ⟨(c9_state_machine lwOpened "x" hash0 target0).1 (by decide),
   (c9_state_machine lwClosed "x" hash0 target0).2.1 rfl,
   (c9_state_machine lwOpened "x" hash0 target0).2.2.1 (by decide),
   (c9_state_machine lwClosed "x" hash0 target0).2.2.2 rfl⟩

/-! ## C10 -/

/-- C10: `Write` on an open writer with no blobs succeeds (given the target's
`SetLabel` succeeds), adds no layers, and makes exactly one target call: setting
the label `io.buildpacks.asset.layers` to the JSON serialization of the empty
`AssetMap`, the string `{}`. -/
theorem c10_empty_writer_sets_empty_label
    (wf : List TarItem → List Nat) (hash : List Nat → String)
    (target : TargetCall → Option String) (t : String) (ht : t ≠ "")
    (hlabel : target (TargetCall.setLabel LayersLabel (jsonAssetMap [])) = none) :
    (openedFrom wf t []).Write hash target =
      (openedFrom wf t [],
       [TargetCall.setLabel "io.buildpacks.asset.layers" "\x7b\x7d"], none) := by
  have hjson : jsonAssetMap [] = "\x7b\x7d" := by decide
  have hlab : LayersLabel = "io.buildpacks.asset.layers" := rfl
  have htne : (openedFrom wf t []).tmpDir ≠ "" := ht
  rw [hlab, hjson] at hlabel
  unfold AssetWriter.Write
  rw [if_neg htne]
  simp [openedFrom, builtFrom, NewLayerWriter, writeBlobs_nil, hlabel, hjson, hlab]

/-- Witness for C10 at a concrete empty open writer. -/
theorem c10_empty_writer_sets_empty_label_witness :
    ("tmp" : String) ≠ "" ∧
    (openedFrom wf0 "tmp" []).Write hash0 target0 =
      (openedFrom wf0 "tmp" [],
       [TargetCall.setLabel "io.buildpacks.asset.layers" "\x7b\x7d"], none) :=
  ⟨by decide, c10_empty_writer_sets_empty_label wf0 hash0 target0 "tmp" (by decide) rfl⟩

/-! ## C8 -/

theorem addMeta_lookup_preserve (bs : List Blob) :
    ∀ (md : AssetMap) (k : String),
    mapLookup md k ≠ none → mapLookup (addMeta md bs) k ≠ none := by
  induction bs with
  | nil => intro md k h; exact h
  | cons b rest ih =>
      intro md k h
      rw [addMeta_cons]
      exact ih _ _ (mapLookup_insert_isSome md _ _ k h)

theorem addMeta_lookup_mem (bs : List Blob) :
    ∀ md : AssetMap, ∀ b ∈ bs, mapLookup (addMeta md bs) (blobSha b) ≠ none := by
  induction bs with
  | nil => simp
  | cons hd rest ih =>
      intro md b hb
      rcases List.mem_cons.mp hb with rfl | hbr
      · rw [addMeta_cons]
        apply addMeta_lookup_preserve
        rw [mapLookup_insert_self]
        simp
      · rw [addMeta_cons]
        exact ih _ b hbr

/-- The invariant of a writer populated exclusively through `AddAssetBlobs`:
every appended blob's declared hash has a metadata entry. -/
def goodWriter (lw : AssetWriter) : Prop :=
  ∀ b ∈ lw.blobs, mapLookup lw.metadata (blobSha b) ≠ none

theorem goodWriter_new (wf : List TarItem → List Nat) : goodWriter (NewLayerWriter wf) := by
  intro b hb
  simp [NewLayerWriter] at hb

theorem goodWriter_add (lw : AssetWriter) (bs : List Blob) (h : goodWriter lw) :
    goodWriter (lw.AddAssetBlobs bs) := by
  intro b hb
  rw [AddAssetBlobs_blobs] at hb
  rw [AddAssetBlobs_metadata]
  rcases List.mem_append.mp hb with h1 | h2
  · exact addMeta_lookup_preserve bs _ _ (h b h1)
  · exact addMeta_lookup_mem bs _ b h2

theorem builtFrom_good (wf : List TarItem → List Nat) (batches : List (List Blob)) :
    goodWriter (builtFrom wf batches) := by
  suffices h : ∀ lw, goodWriter lw →
      goodWriter (batches.foldl (fun lw bs => lw.AddAssetBlobs bs) lw) from
    h _ (goodWriter_new wf)
  induction batches with
  | nil => intro lw h; exact h
  | cons bs rest ih =>
      intro lw h
      exact ih _ (goodWriter_add lw bs h)

theorem writeBlobs_cons_ok_any (hash : List Nat → String)
    (target : TargetCall → Option String) (t : String) (wf : List TarItem → List Nat)
    (b : Blob) (rest : List Blob) (md : AssetMap) (calls : List TargetCall)
    (c : List Nat) (hopen : b.Open = .ok c)
    (m : AssetValue) (hm : mapLookup md (blobSha b) = some m) :
    writeBlobs hash target t wf (b :: rest) md calls =
      match target (stepCall hash wf t b) with
      | some e => (md, calls ++ [stepCall hash wf t b], some (WriteErr.layerWrite e))
      | none => writeBlobs hash target t wf rest
          (mapInsert md (blobSha b) { m with LayerDiffID := "sha256:" ++ blobDiffID hash wf b })
          (calls ++ [stepCall hash wf t b]) := by
  cases htc : target (stepCall hash wf t b) with
  | some e =>
      rw [stepCall_of_open hash wf t b c hopen] at htc ⊢
      simp only [blobSha] at hm htc ⊢
      simp [writeBlobs, toAssetTar, hopen, hm, htc, blobDiffID, blobContent]
  | none =>
      rw [writeBlobs_cons_ok hash target t wf b rest md calls c hopen m hm htc]

theorem writeBlobs_no_unknown (hash : List Nat → String)
    (target : TargetCall → Option String) (t : String) (wf : List TarItem → List Nat)
    (bs : List Blob) :
    ∀ (md : AssetMap) (calls : List TargetCall) (s : String),
    (∀ b ∈ bs, mapLookup md (blobSha b) ≠ none) →
    (writeBlobs hash target t wf bs md calls).2.2 ≠ some (WriteErr.unknownAsset s) := by
  induction bs with
  | nil =>
      intro md calls s _
      simp [writeBlobs_nil]
  | cons b rest ih =>
      intro md calls s hgood
      cases hb : b.Open with
      | error e =>
          rw [writeBlobs_cons_openFail hash target t wf b rest md calls e hb]
          simp
      | ok c =>
          obtain ⟨m, hm⟩ : ∃ m, mapLookup md (blobSha b) = some m := by
            cases h : mapLookup md (blobSha b) with
            | some m => exact ⟨m, rfl⟩
            | none => exact absurd h (hgood b (List.mem_cons_self b rest))
          rw [writeBlobs_cons_ok_any hash target t wf b rest md calls c hb m hm]
          cases htc : target (stepCall hash wf t b) with
          | some e => simp
          | none =>
              refine ih _ _ s ?_
              intro b' hb'
              exact mapLookup_insert_isSome md _ _ _
                (hgood b' (List.mem_cons_of_mem b hb'))

/-- C8: on a writer populated exclusively through `AddAssetBlobs` (any sequence
of batches starting from `NewLayerWriter`), `Write` can never return the
defensive `unknown sha256 asset value` error — the lookup for each blob's
declared hash always succeeds, making that branch unreachable. -/
theorem c8_unknown_branch_unreachable (wf : List TarItem → List Nat)
    (hash : List Nat → String) (target : TargetCall → Option String)
    (t : String) (batches : List (List Blob)) (s : String) :
    ((openedFrom wf t batches).Write hash target).2.2 ≠
      some (WriteErr.unknownAsset s) := by
  unfold AssetWriter.Write
  by_cases htd : (openedFrom wf t batches).tmpDir = ""
  · rw [if_pos htd]
    simp
  · rw [if_neg htd]
    have hgood : ∀ b ∈ (openedFrom wf t batches).blobs,
        mapLookup (openedFrom wf t batches).metadata (blobSha b) ≠ none :=
      builtFrom_good wf batches
    have hnun := writeBlobs_no_unknown hash target (openedFrom wf t batches).tmpDir
      (openedFrom wf t batches).writerFactory (openedFrom wf t batches).blobs
      (openedFrom wf t batches).metadata [] s hgood
    rcases hres : writeBlobs hash target (openedFrom wf t batches).tmpDir
      (openedFrom wf t batches).writerFactory (openedFrom wf t batches).blobs
      (openedFrom wf t batches).metadata [] with ⟨md, calls, err⟩
    rw [hres] at hnun
    cases err with
    | some e => simpa using hnun
    | none =>
        cases htc : target (TargetCall.setLabel LayersLabel (jsonAssetMap md)) <;>
          simp [htc]

/-! ## C5 -/

theorem strToList_append (a b : String) : (a ++ b).toList = a.toList ++ b.toList := by
  cases a
  cases b
  rfl

theorem isPrefixB_append (l m : List Char) : isPrefixB l (l ++ m) = true := by
  induction l with
  | nil => rfl
  | cons c rest ih => simp [isPrefixB, ih]

theorem strContains_of_startsWith (s pat : String) (h : strStartsWith s pat = true) :
    strContains s pat = true := by
  unfold strStartsWith at h
  unfold strContains
  cases hs : s.toList with
  | nil =>
      rw [hs] at h
      simp only [containsB]
      simpa [String.toList] using h
  | cons c rest =>
      rw [hs] at h
      simp only [containsB, Bool.or_eq_true]
      exact Or.inl (by simpa [String.toList] using h)

/-- The message of every `layerFile` error contains the wrap text
`unable to create asset layer file`. -/
theorem strContains_layerFile (cause : String) :
    strContains (WriteErr.message (WriteErr.layerFile cause))
      "unable to create asset layer file" = true := by
  apply strContains_of_startsWith
  unfold strStartsWith
  show isPrefixB "unable to create asset layer file".toList
    (("unable to create asset layer file: " ++ cause)).toList = true
  rw [strToList_append]
  have hsplit : "unable to create asset layer file: ".toList =
      "unable to create asset layer file".toList ++ ": ".toList := by decide
  rw [hsplit, List.append_assoc]
  exact isPrefixB_append _ _

theorem writeBlobs_cons_unknown (hash : List Nat → String)
    (target : TargetCall → Option String) (t : String) (wf : List TarItem → List Nat)
    (b : Blob) (rest : List Blob) (md : AssetMap) (calls : List TargetCall)
    (c : List Nat) (hopen : b.Open = .ok c)
    (hlk : mapLookup md (blobSha b) = none) :
    writeBlobs hash target t wf (b :: rest) md calls =
      match target (stepCall hash wf t b) with
      | some e => (md, calls ++ [stepCall hash wf t b], some (WriteErr.layerWrite e))
      | none => (md, calls ++ [stepCall hash wf t b],
          some (WriteErr.unknownAsset (blobSha b))) := by
  cases htc : target (stepCall hash wf t b) with
  | some e =>
      rw [stepCall_of_open hash wf t b c hopen] at htc ⊢
      simp only [blobSha] at hlk htc ⊢
      simp [writeBlobs, toAssetTar, hopen, hlk, htc, blobDiffID, blobContent]
  | none =>
      rw [stepCall_of_open hash wf t b c hopen] at htc ⊢
      simp only [blobSha] at hlk htc ⊢
      simp [writeBlobs, toAssetTar, hopen, hlk, htc, blobDiffID, blobContent]

theorem writeBlobs_no_setLabel (hash : List Nat → String)
    (target : TargetCall → Option String) (t : String) (wf : List TarItem → List Nat)
    (bs : List Blob) :
    ∀ (md : AssetMap) (calls : List TargetCall) (k v : String),
    TargetCall.setLabel k v ∉ calls →
    TargetCall.setLabel k v ∉ (writeBlobs hash target t wf bs md calls).2.1 := by
  induction bs with
  | nil =>
      intro md calls k v h
      simpa [writeBlobs_nil] using h
  | cons b rest ih =>
      intro md calls k v h
      cases hb : b.Open with
      | error e =>
          rw [writeBlobs_cons_openFail hash target t wf b rest md calls e hb]
          simpa using h
      | ok c =>
          cases hlk : mapLookup md (blobSha b) with
          | none =>
              rw [writeBlobs_cons_unknown hash target t wf b rest md calls c hb hlk]
              cases htc : target (stepCall hash wf t b) <;>
                simp [List.mem_append, h, stepCall]
          | some m =>
              rw [writeBlobs_cons_ok_any hash target t wf b rest md calls c hb m hlk]
              cases htc : target (stepCall hash wf t b) with
              | some e => simp [List.mem_append, h, stepCall]
              | none =>
                  apply ih
                  simp [List.mem_append, h, stepCall]

theorem writeBlobs_openFail_layerFile (hash : List Nat → String)
    (target : TargetCall → Option String) (t : String) (wf : List TarItem → List Nat)
    (bs : List Blob) :
    ∀ (md : AssetMap) (calls : List TargetCall),
    (∀ b ∈ bs, mapLookup md (blobSha b) ≠ none) →
    (∀ c, target c = none) →
    (∃ b ∈ bs, isErrE b.Open = true) →
    ∃ cause, (writeBlobs hash target t wf bs md calls).2.2 =
      some (WriteErr.layerFile cause) := by
  induction bs with
  | nil =>
      intro md calls _ _ hfail
      simp at hfail
  | cons b rest ih =>
      intro md calls hgood htgt hfail
      cases hb : b.Open with
      | error e =>
          rw [writeBlobs_cons_openFail hash target t wf b rest md calls e hb]
          exact ⟨_, rfl⟩
      | ok c =>
          obtain ⟨m, hm⟩ : ∃ m, mapLookup md (blobSha b) = some m := by
            cases h : mapLookup md (blobSha b) with
            | some m => exact ⟨m, rfl⟩
            | none => exact absurd h (hgood b (List.mem_cons_self b rest))
          rw [writeBlobs_cons_ok hash target t wf b rest md calls c hb m hm (htgt _)]
          refine ih _ _ ?_ htgt ?_
          · intro b' hb'
            exact mapLookup_insert_isSome md _ _ _
              (hgood b' (List.mem_cons_of_mem b hb'))
          · obtain ⟨b0, hb0, herr⟩ := hfail
            rcases List.mem_cons.mp hb0 with rfl | hb0r
            · rw [hb] at herr
              simp [isErrE] at herr
            · exact ⟨b0, hb0r, herr⟩

/-- C5 (amended): on a writer populated through `AddAssetBlobs` containing a
blob whose `Open` fails, `Write` returns a `layerFile` error whose message
contains `unable to create asset layer file` (wrapping the blob-open cause),
and `SetLabel` is never invoked on the target.  (The string
`unable to add asset blobs` is added by the caller `CreateAssetPackage`, not by
`Write` itself.) -/
theorem c5_amended_blob_open_failure (wf : List TarItem → List Nat)
    (hash : List Nat → String) (target : TargetCall → Option String)
    (t : String) (batches : List (List Blob))
    (ht : t ≠ "") (htgt : ∀ c, target c = none)
    (hfail : ∃ b ∈ (openedFrom wf t batches).blobs, isErrE b.Open = true) :
    (∃ cause, ((openedFrom wf t batches).Write hash target).2.2 =
        some (WriteErr.layerFile cause) ∧
      strContains (WriteErr.message (WriteErr.layerFile cause))
        "unable to create asset layer file" = true) ∧
    ∀ k v, TargetCall.setLabel k v ∉ ((openedFrom wf t batches).Write hash target).2.1 := by
  have htne : (openedFrom wf t batches).tmpDir ≠ "" := ht
  have hgood : ∀ b ∈ (openedFrom wf t batches).blobs,
      mapLookup (openedFrom wf t batches).metadata (blobSha b) ≠ none :=
    builtFrom_good wf batches
  obtain ⟨cause, hcause⟩ := writeBlobs_openFail_layerFile hash target
    (openedFrom wf t batches).tmpDir (openedFrom wf t batches).writerFactory
    (openedFrom wf t batches).blobs (openedFrom wf t batches).metadata [] hgood htgt hfail
  have hnosl : ∀ k v, TargetCall.setLabel k v ∉
      (writeBlobs hash target (openedFrom wf t batches).tmpDir
        (openedFrom wf t batches).writerFactory (openedFrom wf t batches).blobs
        (openedFrom wf t batches).metadata []).2.1 :=
    fun k v => writeBlobs_no_setLabel hash target _ _ _ _ _ k v (by simp)
  unfold AssetWriter.Write
  rw [if_neg htne]
  rcases hres : writeBlobs hash target (openedFrom wf t batches).tmpDir
    (openedFrom wf t batches).writerFactory (openedFrom wf t batches).blobs
    (openedFrom wf t batches).metadata [] with ⟨md, calls, err⟩
  rw [hres] at hcause
  simp only at hcause
  subst hcause
  refine ⟨⟨cause, by simp, strContains_layerFile cause⟩, ?_⟩
  intro k v
  have := hnosl k v
  rw [hres] at this
  simpa using this

/-- A blob whose `Open` capability fails. -/
def blobBad : Blob := { AssetDescriptor := infoA, Open := .error "open blob error" }

/-- Counterexample to C5 as stated: at a concrete writer holding one blob whose
`Open` fails, `Write` returns the error
`unable to create asset layer file: unable to open blob for asset
"first-sha256": open blob error`, whose message does NOT contain the claimed
substring `unable to add asset blobs` (that wrap is added by the caller
`CreateAssetPackage`, outside `Write`). -/
theorem c5_counterexample_message_not_present :
    ((openedFrom wf0 "tmp" [[blobBad]]).Write hash0 target0).2.2 =
      some (WriteErr.layerFile
        "unable to open blob for asset \"first-sha256\": open blob error") ∧
    strContains
      (WriteErr.message (WriteErr.layerFile
        "unable to open blob for asset \"first-sha256\": open blob error"))
      "unable to add asset blobs" = false :=
  ⟨by decide, by decide⟩

/-- Witness for the amended C5 at the concrete failing blob. -/
theorem c5_amended_blob_open_failure_witness :
    ("tmp" : String) ≠ "" ∧
    (∃ b ∈ (openedFrom wf0 "tmp" [[blobBad]]).blobs, isErrE b.Open = true) ∧
    (∃ cause, ((openedFrom wf0 "tmp" [[blobBad]]).Write hash0 target0).2.2 =
        some (WriteErr.layerFile cause) ∧
      strContains (WriteErr.message (WriteErr.layerFile cause))
        "unable to create asset layer file" = true) ∧
    ∀ k v, TargetCall.setLabel k v ∉
      ((openedFrom wf0 "tmp" [[blobBad]]).Write hash0 target0).2.1 := by
  have h := c5_amended_blob_open_failure wf0 hash0 target0 "tmp" [[blobBad]]
    (by decide) (fun c => rfl) ⟨blobBad, by decide, by decide⟩
  exact ⟨by decide, ⟨blobBad, by decide, by decide⟩, h.1, h.2⟩

/-! ## C7 -/

/-- The serialized tar-layer byte stream `Write` persists and hashes for one
blob (`GenerateTarWithWriter` piped into `createAssetLayerFile`). -/
def layerStream (wf : List TarItem → List Nat) (b : Blob) : Except String (List Nat) :=
  (toAssetTar (blobSha b) b).map wf

theorem layerStream_congr (wf : List TarItem → List Nat) (a b : Blob)
    (hs : blobSha a = blobSha b) (ho : a.Open = b.Open) :
    layerStream wf a = layerStream wf b := by
  unfold layerStream toAssetTar
  rw [hs, ho]

theorem blobDiffID_congr (hash : List Nat → String) (wf : List TarItem → List Nat)
    (a b : Blob) (hs : blobSha a = blobSha b) (ho : a.Open = b.Open) :
    blobDiffID hash wf a = blobDiffID hash wf b := by
  unfold blobDiffID blobContent
  rw [show a.AssetDescriptor.Sha256 = b.AssetDescriptor.Sha256 from hs, ho]

/-- C7: layer construction is deterministic — two `Write` layer loops over blob
sequences that agree pointwise on declared hash and content bytes produce
identical serialized tar streams, and identical target-call traces (hence equal
diff-ids) and identical error status, whatever the blobs' other identity fields
or the metadata entries are. -/
theorem c7_deterministic_layers (hash : List Nat → String)
    (target : TargetCall → Option String) (t : String) (wf : List TarItem → List Nat)
    (bs1 bs2 : List Blob)
    (hrel : List.Forall₂ (fun a b => blobSha a = blobSha b ∧ a.Open = b.Open) bs1 bs2)
    (md1 md2 : AssetMap)
    (hgood1 : ∀ b ∈ bs1, mapLookup md1 (blobSha b) ≠ none)
    (hgood2 : ∀ b ∈ bs2, mapLookup md2 (blobSha b) ≠ none) :
    bs1.map (layerStream wf) = bs2.map (layerStream wf) ∧
    (writeBlobs hash target t wf bs1 md1 []).2 =
      (writeBlobs hash target t wf bs2 md2 []).2 := by
  constructor
  · clear hgood1 hgood2 md1 md2
    induction hrel with
    | nil => rfl
    | cons hab _ ih => simp [layerStream_congr wf _ _ hab.1 hab.2, ih]
  · have main : ∀ {xs ys : List Blob},
        List.Forall₂ (fun a b => blobSha a = blobSha b ∧ a.Open = b.Open) xs ys →
        ∀ (m1 m2 : AssetMap) (calls : List TargetCall),
        (∀ b ∈ xs, mapLookup m1 (blobSha b) ≠ none) →
        (∀ b ∈ ys, mapLookup m2 (blobSha b) ≠ none) →
        (writeBlobs hash target t wf xs m1 calls).2 =
          (writeBlobs hash target t wf ys m2 calls).2 := by
      intro xs ys h
      induction h with
      | nil => intro m1 m2 calls _ _; rfl
      | cons hab hrest ih =>
          rename_i a b rest1 rest2
          intro m1 m2 calls hg1 hg2
          obtain ⟨hs, ho⟩ := hab
          cases hao : a.Open with
          | error e =>
              have hbo : b.Open = .error e := by rw [← ho, hao]
              rw [writeBlobs_cons_openFail hash target t wf a rest1 m1 calls e hao,
                writeBlobs_cons_openFail hash target t wf b rest2 m2 calls e hbo, hs]
          | ok c =>
              have hbo : b.Open = .ok c := by rw [← ho, hao]
              have hsc : stepCall hash wf t a = stepCall hash wf t b := by
                rw [stepCall_of_open hash wf t a c hao,
                  stepCall_of_open hash wf t b c hbo, hs]
              obtain ⟨m1v, hm1⟩ : ∃ m, mapLookup m1 (blobSha a) = some m := by
                cases h : mapLookup m1 (blobSha a) with
                | some m => exact ⟨m, rfl⟩
                | none => exact absurd h (hg1 a (List.mem_cons_self a rest1))
              obtain ⟨m2v, hm2⟩ : ∃ m, mapLookup m2 (blobSha b) = some m := by
                cases h : mapLookup m2 (blobSha b) with
                | some m => exact ⟨m, rfl⟩
                | none => exact absurd h (hg2 b (List.mem_cons_self b rest2))
              rw [writeBlobs_cons_ok_any hash target t wf a rest1 m1 calls c hao m1v hm1,
                writeBlobs_cons_ok_any hash target t wf b rest2 m2 calls c hbo m2v hm2,
                hsc]
              cases htc : target (stepCall hash wf t b) with
              | some e => rfl
              | none =>
                  apply ih
                  · intro b' hb'
                    exact mapLookup_insert_isSome m1 _ _ _
                      (hg1 b' (List.mem_cons_of_mem a hb'))
                  · intro b' hb'
                    exact mapLookup_insert_isSome m2 _ _ _
                      (hg2 b' (List.mem_cons_of_mem b hb'))
    exact main hrel md1 md2 [] hgood1 hgood2

/-- A blob with `infoB`'s identity but `blobA`'s declared hash and content. -/
def blobD : Blob := { AssetDescriptor := infoB, Open := .ok [102, 105] }

/-- A one-entry metadata map for `blobA`'s declared hash. -/
def mdA : AssetMap := [("first-sha256", infoA.ToAssetValue "")]

/-- A one-entry metadata map for the same hash with `infoB`'s identity. -/
def mdB : AssetMap := [("first-sha256", infoB.ToAssetValue "")]

/-- Witness for C7: two runs over blobs that differ in identity fields but
agree on declared hash and content produce identical streams and traces. -/
theorem c7_deterministic_layers_witness :
    [blobA].map (layerStream wf0) = [blobD].map (layerStream wf0) ∧
    (writeBlobs hash0 target0 "tmp" wf0 [blobA] mdA []).2 =
      (writeBlobs hash0 target0 "tmp" wf0 [blobD] mdB []).2 :=
  c7_deterministic_layers hash0 target0 "tmp" wf0 [blobA] [blobD]
    (List.Forall₂.cons ⟨by decide, by decide⟩ List.Forall₂.nil)
    mdA mdB (by decide) (by decide)

/-! ## C3 -/

/-- The `Readable` list of a successful strategy result (empty on error). -/
def okList : Except String (List Readable) → List Readable
  | .ok l => l
  | .error _ => []

theorem fetchLoop_append_fail (f : Fetcher) (fileExists : String → Bool)
    (cfg : FetcherConfig) (good : List String) :
    ∀ (acc : List Readable) (trace : List String) (bad : String)
      (rest : List String) (e : String),
    (∀ n ∈ good, isOkE (dispatchRef f fileExists cfg n) = true) →
    dispatchRef f fileExists cfg bad = .error e →
    fetchLoop f fileExists cfg (good ++ bad :: rest) acc trace =
      (acc ++ (good.map (fun n => okList (dispatchRef f fileExists cfg n))).join,
       some ("unable to fetch asset of type \"" ++
         (GetLocatorType fileExists bad cfg.workingDir).str ++ "\": " ++ e),
       trace ++ good ++ [bad]) := by
  induction good with
  | nil =>
      intro acc trace bad rest e _ hbad
      simp [fetchLoop, hbad]
  | cons n good' ih =>
      intro acc trace bad rest e hgood hbad
      obtain ⟨l, hl⟩ : ∃ l, dispatchRef f fileExists cfg n = .ok l := by
        have hn := hgood n (List.mem_cons_self n good')
        cases h : dispatchRef f fileExists cfg n with
        | ok l => exact ⟨l, rfl⟩
        | error e' =>
            rw [h] at hn
            simp [isOkE] at hn
      have hgood' : ∀ m ∈ good', isOkE (dispatchRef f fileExists cfg m) = true :=
        fun m hm => hgood m (List.mem_cons_of_mem n hm)
      simp only [List.cons_append]
      rw [show fetchLoop f fileExists cfg (n :: (good' ++ bad :: rest)) acc trace =
          fetchLoop f fileExists cfg (good' ++ bad :: rest) (acc ++ l) (trace ++ [n]) by
        simp [fetchLoop, hl]]
      rw [ih _ _ bad rest e hgood' hbad]
      simp [okList, hl, List.append_assoc]

/-- C3 (amended): on the first failing reference, `FetchAssets` stops
immediately (only the references up to and including the failing one are
dispatched) and returns an error naming the failing backend's locator type,
together with the `Readable`s accumulated from the preceding successful
references — the partial results are returned alongside the error, not
discarded. -/
theorem c3_amended_fail_fast_partial_results (f : Fetcher)
    (fileExists : String → Bool) (wd : String) (options : List FetcherOptions)
    (good : List String) (bad : String) (rest : List String) (e : String)
    (hgood : ∀ n ∈ good,
      isOkE (dispatchRef f fileExists (resolveConfig wd options) n) = true)
    (hbad : dispatchRef f fileExists (resolveConfig wd options) bad = .error e) :
    f.FetchAssets fileExists wd (good ++ bad :: rest) options =
      ((good.map (fun n =>
          okList (dispatchRef f fileExists (resolveConfig wd options) n))).join,
       some ("unable to fetch asset of type \"" ++
         (GetLocatorType fileExists bad (resolveConfig wd options).workingDir).str
           ++ "\": " ++ e),
       good ++ [bad]) := by
  unfold Fetcher.FetchAssets
  rw [fetchLoop_append_fail f fileExists (resolveConfig wd options) good [] [] bad rest e
    hgood hbad]
  simp

/-- A single concrete `Readable`. -/
def readable1 : Readable := { rid := 1 }

/-- A concrete fetcher: the URI strategy succeeds on `http://good` with one
readable, and the image strategy always fails with `boom`. -/
def fetcher0 : Fetcher :=
  { assetFileFetcher := fun _ _ => .ok []
    assetURIFetcher := fun n => if n = "http://good" then .ok [readable1] else .error "nope"
    assetImageFetcher := fun _ _ => .error "boom" }

/-- A filesystem on which no path exists. -/
def noFile : String → Bool := fun _ => false

/-- Counterexample to C3 as stated: with `http://good` succeeding and
`bad-image` failing, `FetchAssets` returns the partially accumulated result
`[readable1]` (not an empty sequence) alongside the error naming the failing
backend, so the returned `Readable` sequence does contain partially accumulated
results. -/
theorem c3_counterexample_partial_results_returned :
    Fetcher.FetchAssets fetcher0 noFile "/wd" ["http://good", "bad-image"] [] =
      ([readable1],
       some "unable to fetch asset of type \"ImageLocator\": boom",
       ["http://good", "bad-image"]) ∧
    (Fetcher.FetchAssets fetcher0 noFile "/wd" ["http://good", "bad-image"] []).1 ≠ [] :=
  ⟨by decide, by decide⟩

/-- Witness for the amended C3 at the concrete input: the reference after the
failing one is never dispatched, and the first reference's result is returned. -/
theorem c3_amended_fail_fast_partial_results_witness :
    Fetcher.FetchAssets fetcher0 noFile "/wd" (["http://good"] ++ "bad-image" :: ["later"]) [] =
      ((["http://good"].map (fun n =>
          okList (dispatchRef fetcher0 noFile (resolveConfig "/wd" []) n))).join,
       some ("unable to fetch asset of type \"" ++
         (GetLocatorType noFile "bad-image" (resolveConfig "/wd" []).workingDir).str
           ++ "\": " ++ "boom"),
       ["http://good"] ++ ["bad-image"]) :=
  c3_amended_fail_fast_partial_results fetcher0 noFile "/wd" []
    ["http://good"] "bad-image" ["later"] "boom" (by decide) (by decide)

/-! ## C4 -/

/-- A concrete environment in which the download succeeds but the downloaded
blob cannot be opened as an OCI-layout package. -/
def env0 : URIFetchEnv :=
  { download := fun _ => .ok 0
    newOCILayoutPackage := fun _ => .error "not an OCI layout"
    uriToFilePath := fun s => .ok s
    fetchFileAssets := fun _ _ => .ok [] }

/-- C4 evaluated at the failing input: when the downloaded blob for an
`http` asset cannot be opened as an OCI-layout package,
`AssetURIFetcher.FetchURIAssets` (the variant wired into the `Fetcher` façade)
panics instead of returning an error value, while the parallel
`PackageURLFetcher.FetchURIAssets` returns the wrapped error the spec
describes. -/
theorem c4_oci_open_failure_panics :
    AssetURIFetcher.FetchURIAssets env0 ["http://bad-package"] =
      FetchRun.panicked "not an OCI layout" ∧
    PackageURLFetcher.FetchURIAssets env0 ["http://bad-package"] =
      FetchRun.ret []
        (some "error opening asset package in OCI format: not an OCI layout") :=
  ⟨by decide, by decide⟩
